import Mathlib

/-!
# Verification of the multi-account activity heatmap generator

A shallow embedding of the location-aggregation and rendering pipeline of
`strava_multi_account.py`, together with theorems settling the specified
properties.

Modelling conventions:
* Python floats (coordinates) are modelled as rationals; `round(x, 1)` is
  modelled as rounding to the nearest multiple of 1/10.
* Python dicts (insertion ordered, unique keys) are modelled as association
  lists with first-match update semantics.
* CPython's randomised string hash (`hash` on `str`, keyed by the per-process
  `PYTHONHASHSEED`) is modelled as an explicit function parameter
  `h : String → ℤ`; two runs of the program correspond to two (in general
  different) such functions.
* Network effects (the Nominatim reverse-geocoding call) are modelled by an
  explicit collaborator function returning the outcome of one HTTP request;
  the rendering backend (folium) is elided, and a map builder's produced file is modelled by the filename value the source function returns.
-/

namespace Strava

/-- Renders the rational `n / 10` the way Python prints a one-decimal float
(sign, integer part, dot, single digit). -/
def tenthsToString (n : ℤ) : String :=
  (if n < 0 then "-" else "") ++ toString (n.natAbs / 10) ++ "." ++ toString (n.natAbs % 10)

/-- Python `f-string` rendering of `round(x, 1)`: the coordinate rounded to
the nearest multiple of 1/10 (Python breaks ties to even on the underlying
float; the tie rule is immaterial to every property below), printed with one
decimal digit. -/
def ratToStr1 (q : ℚ) : String := tenthsToString (round (q * 10))

/-- An activity record, with the fields the pipeline reads.  Optional fields
carry the defaults the source fetches with `.get`: missing `location_city`,
`location_country` and `type` behave exactly like the empty string (both are
falsy), `start_latlng` is `none` for a missing or empty coordinate list, and
the account tag stamped at ingestion is read with default `Unknown`. -/
structure Activity where
  account : Option String
  type : String
  start_latlng : Option (ℚ × ℚ)
  location_city : String
  location_country : String
  name : String
deriving DecidableEq, Repr

/-- The account tag as the source reads it: the stamped tag, or `Unknown` when absent. -/
def Activity.accountName (a : Activity) : String := a.account.getD "Unknown"

/-- Python str.lower modelled per character (character-wise ASCII lowering,
which the kernel can evaluate). -/
def strLower (s : String) : String := String.mk (s.data.map Char.toLower)

/-- The 20-color palette of `assign_region_color`. -/
def regionColors : List String :=
  ["#ef4444", "#f59e0b", "#eab308", "#84cc16", "#22c55e",
   "#10b981", "#14b8a6", "#06b6d4", "#0ea5e9", "#3b82f6",
   "#6366f1", "#8b5cf6", "#a855f7", "#d946ef", "#ec4899",
   "#f43f5e", "#fb923c", "#fbbf24", "#a3e635", "#4ade80"]

/-- `assign_region_color`: indexes the palette by `hash(location_key) % 20`.
The process string hash `h` is a parameter because CPython randomises it per
run.  Python's `%` with a positive divisor agrees with `Int.emod`. -/
def assign_region_color (h : String → ℤ) (location_key : String) : String :=
  regionColors.getD (h location_key % 20).toNat ""

/-- The 10-color default palette of `get_account_color`. -/
def accountPalette : List String :=
  ["#ef4444", "#3b82f6", "#10b981", "#f59e0b", "#8b5cf6",
   "#ec4899", "#06b6d4", "#84cc16", "#f97316", "#6366f1"]

/-- A Python dict modelled as an insertion-ordered association list with
unique-key update semantics (update the first matching entry). -/
def dictSet {α : Type} : List (String × α) → String → α → List (String × α)
  | [], k, v => [(k, v)]
  | (k0, v0) :: rest, k, v =>
    if k0 = k then (k0, v) :: rest else (k0, v0) :: dictSet rest k v

/-- Dict lookup (`d[k]` / `k in d`). -/
def dictGet {α : Type} : List (String × α) → String → Option α
  | [], _ => none
  | (k0, v0) :: rest, k => if k0 = k then some v0 else dictGet rest k

/-- `get_account_color`: reserved identifiers m / a / o (case-insensitive)
get hard-coded colors (and are still written into the dict); any other
account, when first seen, gets `accountPalette[len(account_colors) % 10]`.
Returns the color together with the updated `account_colors` dict. -/
def get_account_color (account_name : String) (account_colors : List (String × String)) :
    String × List (String × String) :=
  let lower := strLower account_name
  if lower = "m" then ("#8b5cf6", dictSet account_colors account_name "#8b5cf6")
  else if lower = "a" then ("#10b981", dictSet account_colors account_name "#10b981")
  else if lower = "o" then ("#f97316", dictSet account_colors account_name "#f97316")
  else
    match dictGet account_colors account_name with
    | some c => (c, account_colors)
    | none =>
      let c := accountPalette.getD (account_colors.length % 10) ""
      (c, account_colors ++ [(account_name, c)])

/-- Assigns colors to a list of account names in order, threading the
`account_colors` dict exactly as one run of the program does; returns the
colors in order. -/
def assignAccountColors : List String → List (String × String) → List String
  | [], _ => []
  | n :: rest, d =>
    let r := get_account_color n d
    r.1 :: assignAccountColors rest r.2

/-- Python `\w` over the modelled (ASCII) alphabet: letters, digits, `_`. -/
def isWordChar (c : Char) : Bool := c.isAlphanum || c = '_'

/-- Python `\s` over the modelled alphabet. -/
def isSpaceChar (c : Char) : Bool := c.isWhitespace

/-- The detail-map filename sanitizer of `create_location_routes_map`:
delete every character that is neither a word character nor whitespace nor a
hyphen, strip leading and trailing whitespace, substitute each single space
character by an underscore, and keep at most the first 50 characters. -/
def safe_name (location_key : String) : String :=
  let kept := location_key.data.filter (fun c => isWordChar c || isSpaceChar c || c = '-')
  let stripped := ((kept.dropWhile isSpaceChar).reverse.dropWhile isSpaceChar).reverse
  let replaced := stripped.map (fun c => if c = ' ' then '_' else c)
  String.mk (replaced.take 50)

/-- The sanitizer as the spec describes it: strip characters that are neither
word characters nor whitespace nor hyphens, then collapse each maximal
whitespace run into a single joining underscore, then truncate to 50.
(Spec-side definition, to be compared with `safe_name`.) -/
def collapseWs : List Char → Bool → List Char
  | [], _ => []
  | c :: rest, inRun =>
    if isSpaceChar c then
      if inRun then collapseWs rest true else '_' :: collapseWs rest true
    else c :: collapseWs rest false

/-- Spec-side sanitizer (see `collapseWs`). -/
def safe_name_spec (location_key : String) : String :=
  let kept := location_key.data.filter (fun c => isWordChar c || isSpaceChar c || c = '-')
  let stripped := ((kept.dropWhile isSpaceChar).reverse.dropWhile isSpaceChar).reverse
  String.mk ((collapseWs stripped false).take 50)

/-- Outcome of one attempted HTTP reverse-geocoding request, as seen by
`get_city_from_coordinates`: `ok r` is a 200 response whose address fields
yield the (possibly absent) name `r`; `fail` covers a non-200 status as well
as any swallowed exception — all of which make the function fall through to
caching `None`.  (A `KeyboardInterrupt` aborts the whole run and is outside
the model.) -/
inductive Outcome where
  | ok (r : Option String)
  | fail
deriving DecidableEq, Repr

/-- The geocode-cache key: both coordinates rounded to 1 decimal, rendered,
and joined by a comma, exactly as the source formats the key string. -/
def cacheKey (lat lng : ℚ) : String := ratToStr1 lat ++ "," ++ ratToStr1 lng

/-- The process-lifetime reverse-geocoding cache. -/
abbrev GeoCache : Type := List (String × Option String)

/-- `get_city_from_coordinates`: consults the cache first (a hit is returned
with no request); on a miss it performs one request via the collaborator
`net` and stores the outcome (the name on success, `None` on any failure)
under the rounded key.  Returns the result, the updated cache, and the number
of external requests performed by this call. -/
def get_city_from_coordinates (net : ℚ → ℚ → Outcome) (lat lng : ℚ) (cache : GeoCache) :
    Option String × GeoCache × Nat :=
  match dictGet cache (cacheKey lat lng) with
  | some v => (v, cache, 0)
  | none =>
    match net lat lng with
    | .ok r => (r, cache ++ [(cacheKey lat lng, r)], 1)
    | .fail => (none, cache ++ [(cacheKey lat lng, none)], 1)

/-- `get_location_key`: city/country pair, country alone, city alone,
reverse-geocoded name, rounded-coordinate bucket string, or `Unknown`, in
that priority.  Threads the geocode cache. -/
def get_location_key (net : ℚ → ℚ → Outcome) (a : Activity) (geocode_cache : GeoCache) :
    String × GeoCache :=
  let city := a.location_city
  let country := a.location_country
  if city ≠ "" ∧ country ≠ "" then (city ++ ", " ++ country, geocode_cache)
  else if country ≠ "" then (country, geocode_cache)
  else if city ≠ "" then (city, geocode_cache)
  else
    match a.start_latlng with
    | some (lat, lng) =>
      let r := get_city_from_coordinates net lat lng geocode_cache
      match r.1 with
      | some s =>
        if s ≠ "" then (s, r.2.1)
        else ("Location (" ++ ratToStr1 lat ++ "°, " ++ ratToStr1 lng ++ "°)", r.2.1)
      | none => ("Location (" ++ ratToStr1 lat ++ "°, " ++ ratToStr1 lng ++ "°)", r.2.1)
    | none => ("Unknown", geocode_cache)

/-- The Location Resolver as the spec words it (§4.1 steps 1–5): both city
and country, else country, else city, else the reverse-geocoded name keyed by
1-decimal-rounded coordinates with the coordinate-bucket string on failure or
missing fields, else the literal `Unknown`.  (Spec-side definition, to be
compared with `get_location_key`; it consults the same geocoding collaborator
and cache.) -/
def location_key_spec (net : ℚ → ℚ → Outcome) (a : Activity) (geocode_cache : GeoCache) :
    String :=
  if a.location_city ≠ "" ∧ a.location_country ≠ "" then
    a.location_city ++ ", " ++ a.location_country
  else if a.location_country ≠ "" then a.location_country
  else if a.location_city ≠ "" then a.location_city
  else
    match a.start_latlng with
    | some (lat, lng) =>
      match (get_city_from_coordinates net lat lng geocode_cache).1 with
      | some s =>
        if s ≠ "" then s
        else "Location (" ++ ratToStr1 lat ++ "°, " ++ ratToStr1 lng ++ "°)"
      | none => "Location (" ++ ratToStr1 lat ++ "°, " ++ ratToStr1 lng ++ "°)"
    | none => "Unknown"

/-- A per-location aggregate of `create_combined_heatmap`'s `location_data`
defaultdict: total count, representative coordinate, member activities, and
per-account counts. -/
structure LocAgg where
  count : Nat
  lat : ℚ
  lng : ℚ
  activities : List Activity
  by_account : List (String × Nat)
deriving DecidableEq, Repr

/-- The defaultdict default value for a fresh location. -/
def LocAgg.empty : LocAgg := ⟨0, 0, 0, [], []⟩

/-- `by_account[account_name] += 1` on a `defaultdict(int)`. -/
def bumpAccount : List (String × Nat) → String → List (String × Nat)
  | [], acct => [(acct, 1)]
  | (k, v) :: rest, acct =>
    if k = acct then (k, v + 1) :: rest else (k, v) :: bumpAccount rest acct

/-- One activity's update of its location aggregate: increment the count,
overwrite the representative coordinate with this activity's start
coordinate, append the activity, bump its account's counter. -/
def updateAgg (d : LocAgg) (a : Activity) (lat lng : ℚ) : LocAgg :=
  { count := d.count + 1
    lat := lat
    lng := lng
    activities := d.activities ++ [a]
    by_account := bumpAccount d.by_account a.accountName }

/-- `location_data[location_key]` update on the insertion-ordered defaultdict. -/
def upsertLoc : List (String × LocAgg) → String → Activity → ℚ → ℚ → List (String × LocAgg)
  | [], key, a, lat, lng => [(key, updateAgg LocAgg.empty a lat lng)]
  | (k, d) :: rest, key, a, lat, lng =>
    if k = key then (k, updateAgg d a lat lng) :: rest
    else (k, d) :: upsertLoc rest key a lat lng

/-- The type filter applied by both combined-map builders: keep only
activities whose lowercased type is run, walk or ride. -/
def isTracked (a : Activity) : Bool :=
  strLower a.type = "run" || strLower a.type = "walk" || strLower a.type = "ride"

/-- `filtered_activities` of the combined-map builders. -/
def filterActivities (all_activities : List Activity) : List Activity :=
  all_activities.filter isTracked

/-- One iteration of the heatmap aggregation loop: activities without a start
coordinate are skipped; otherwise the location key is resolved (threading the
geocode cache) and the location's aggregate is updated. -/
def processActivity (net : ℚ → ℚ → Outcome)
    (st : List (String × LocAgg) × GeoCache) (a : Activity) :
    List (String × LocAgg) × GeoCache :=
  match a.start_latlng with
  | none => st
  | some (lat, lng) =>
    let r := get_location_key net a st.2
    (upsertLoc st.1 r.1 a lat lng, r.2)

/-- The heatmap aggregation pass of `create_combined_heatmap` (lines 748–781):
type-filter the input, then fold the per-activity update starting from an
empty `location_data` and a fresh geocode cache. -/
def aggregate (net : ℚ → ℚ → Outcome) (all_activities : List Activity) :
    List (String × LocAgg) × GeoCache :=
  (filterActivities all_activities).foldl (processActivity net) ([], [])

/-- `create_combined_routes_map`, observed through its produced file: returns
`none` (after logging) when the type-filtered list is empty or when no
filtered activity has a start coordinate; otherwise the map is built and
saved under the timestamped name, which is returned.  The folium drawing
primitives are elided: every path that reaches the centering step also
reaches `map_obj.save`. -/
def create_combined_routes_map (all_activities : List Activity) (timestamp : String) :
    Option String :=
  let filtered := filterActivities all_activities
  if filtered = [] then none
  else
    match filtered.find? (fun a => a.start_latlng.isSome) with
    | none => none
    | some _ => some ("combined_routes_" ++ timestamp ++ ".html")

/-- `create_combined_heatmap`, observed through its produced file: the
function unconditionally saves the heatmap document and returns its filename
— there is no early-return branch.  The aggregation it performs is
`aggregate`; the folium rendering is elided. -/
def create_combined_heatmap (net : ℚ → ℚ → Outcome) (all_activities : List Activity)
    (timestamp : String) : String :=
  let _ := aggregate net all_activities
  "combined_heatmap_" ++ timestamp ++ ".html"

/-- `min(counts) if counts else 1` — Python `min` over a non-empty list. -/
def min_count (counts : List Nat) : Nat :=
  match counts with
  | [] => 1
  | c :: rest => rest.foldl Nat.min c

/-- `max(counts) if counts else 1` — Python `max` over a non-empty list. -/
def max_count (counts : List Nat) : Nat :=
  match counts with
  | [] => 1
  | c :: rest => rest.foldl Nat.max c

/-- The density normalization of the heatmap circle loop:
`normalized = (count - min) / (max - min)` when `max > min`, else `1`. -/
def normalizedCount (mn mx count : Nat) : ℚ :=
  if mx > mn then ((count : ℚ) - (mn : ℚ)) / ((mx : ℚ) - (mn : ℚ)) else 1

/-- `radius = 400000 + (normalized * 600000)`. -/
def circleRadius (mn mx count : Nat) : ℚ :=
  400000 + normalizedCount mn mx count * 600000

/-! ## Concrete fixtures used to instantiate the theorems -/

/-- A geocoding collaborator whose every request fails. -/
def netFail : ℚ → ℚ → Outcome := fun _ _ => Outcome.fail

/-- Sample run in city X, country Y, starting at (1, 2). -/
def actA : Activity := ⟨some "m", "Run", some (1, 2), "X", "Y", "n1"⟩

/-- Sample run in the same city X, country Y, starting at (3, 4). -/
def actB : Activity := ⟨some "m", "Run", some (3, 4), "X", "Y", "n2"⟩

/-- Sample run with no start coordinate and no city/country. -/
def actNoCoord : Activity := ⟨some "m", "Run", none, "", "", "n0"⟩

/-! ## C9 — reserved account identifiers get fixed colors -/

/-- Claim C9: from every account-colors state — hence in every run,
regardless of processing order and of which other accounts are present — the
reserved identifiers m, a and o (case-insensitive) map to the fixed colors
violet, green and orange respectively. -/
theorem reserved_accounts_fixed_colors (name : String) (d : List (String × String)) :
    (strLower name = "m" → (get_account_color name d).1 = "#8b5cf6")
    ∧ (strLower name = "a" → (get_account_color name d).1 = "#10b981")
    ∧ (strLower name = "o" → (get_account_color name d).1 = "#f97316") := by
  refine ⟨fun h => ?_, fun h => ?_, fun h => ?_⟩ <;> simp [get_account_color, h]

/-- Witness for `reserved_accounts_fixed_colors` at the uppercase identifiers
and a non-trivial starting state. -/
theorem reserved_accounts_fixed_colors_witness :
    (get_account_color "M" [("x", "#ef4444")]).1 = "#8b5cf6"
    ∧ (get_account_color "A" []).1 = "#10b981"
    ∧ (get_account_color "o" []).1 = "#f97316" :=
  ⟨(reserved_accounts_fixed_colors "M" [("x", "#ef4444")]).1 (by decide),
   (reserved_accounts_fixed_colors "A" []).2.1 (by decide),
   (reserved_accounts_fixed_colors "o" []).2.2 (by decide)⟩

/-! ## C4 — region color across runs -/

/-- Claim C4, counterexample: two runs of the program are two string-hash
functions (CPython randomises the seed per process); with one seed hashing
the key to 0 and another hashing it to 1 the same location key is assigned
two different colors, so the color is not a function of the key alone across
repeated runs. -/
theorem region_color_differs_across_hash_seeds :
    assign_region_color (fun _ => 0) "Berlin, Germany"
      ≠ assign_region_color (fun _ => 1) "Berlin, Germany" := by decide

/-- Claim C4 as amended: the region color is determined by the value of the
process string hash at the key, modulo the palette size 20.  In particular,
within one run (one hash function) the same key always yields the same color
wherever it is used; a pinned hash would make it reproducible across runs. -/
theorem region_color_depends_only_on_hash_mod (h1 h2 : String → ℤ) (k1 k2 : String)
    (hmod : h1 k1 % 20 = h2 k2 % 20) :
    assign_region_color h1 k1 = assign_region_color h2 k2 := by
  unfold assign_region_color
  rw [hmod]

/-- Witness for `region_color_depends_only_on_hash_mod`: hash values 21 and 1
agree modulo 20, so the colors agree. -/
theorem region_color_depends_only_on_hash_mod_witness :
    assign_region_color (fun _ => 21) "Berlin, Germany"
      = assign_region_color (fun _ => 1) "Paris, France" :=
  region_color_depends_only_on_hash_mod (fun _ => 21) (fun _ => 1)
    "Berlin, Germany" "Paris, France" (by decide)

/-! ## C8 — detail-map filename sanitization -/

/-- Claim C8, counterexample: the sanitizer does not collapse whitespace runs
— each space is replaced by its own underscore — so on a key with two
consecutive spaces it differs from the spec-described collapsing sanitizer. -/
theorem safe_name_not_collapsing :
    safe_name "a  b" = "a__b" ∧ safe_name_spec "a  b" = "a_b"
    ∧ safe_name "a  b" ≠ safe_name_spec "a  b" :=
  ⟨rfl, rfl, by decide⟩

/-- Claim C8 as amended: the sanitized name has length at most 50 and every
character of it is a word character, a hyphen, or a non-space whitespace
character (non-space whitespace such as a tab survives the sanitizer; every
space has been turned into an underscore, which is itself a word character). -/
theorem safe_name_filesystem_safe (location_key : String) :
    (safe_name location_key).length ≤ 50
    ∧ ∀ c ∈ (safe_name location_key).data,
        isWordChar c = true ∨ c = '-' ∨ (isSpaceChar c = true ∧ c ≠ ' ') := by
  unfold safe_name
  refine ⟨?_, ?_⟩
  · show (List.take 50 _).length ≤ 50
    rw [List.length_take]
    exact min_le_left _ _
  · intro c hc
    have hc2 : c ∈ (((((location_key.data.filter
        (fun c => isWordChar c || isSpaceChar c || c = '-')).dropWhile
          isSpaceChar).reverse.dropWhile isSpaceChar).reverse).map
            (fun c => if c = ' ' then '_' else c)) := List.take_subset _ _ hc
    rcases List.mem_map.mp hc2 with ⟨c0, hc0, hmap⟩
    have hc0k : c0 ∈ location_key.data.filter
        (fun c => isWordChar c || isSpaceChar c || c = '-') := by
      have s1 := List.mem_reverse.mp hc0
      have s2 := (List.dropWhile_suffix isSpaceChar).sublist.subset s1
      have s3 := List.mem_reverse.mp s2
      exact (List.dropWhile_suffix isSpaceChar).sublist.subset s3
    have hpred := (List.mem_filter.mp hc0k).2
    by_cases hsp : c0 = ' '
    · left
      rw [← hmap, if_pos hsp]
      rfl
    · rw [← hmap, if_neg hsp]
      simp only [Bool.or_eq_true, decide_eq_true_eq] at hpred
      rcases hpred with (h | h) | h
      · exact Or.inl h
      · exact Or.inr (Or.inr ⟨h, hsp⟩)
      · exact Or.inr (Or.inl h)

/-- Witness for `safe_name_filesystem_safe` at a concrete key containing a
space, applied to the underscore the space turns into. -/
theorem safe_name_filesystem_safe_witness :
    (safe_name "a b").length ≤ 50
    ∧ (isWordChar '_' = true ∨ '_' = '-' ∨ (isSpaceChar '_' = true ∧ '_' ≠ ' ')) :=
  ⟨(safe_name_filesystem_safe "a b").1,
   (safe_name_filesystem_safe "a b").2 '_' (by decide)⟩

/-! ## C7 — density normalization extremes -/

/-- Python min over a list, lower bound for the accumulator. -/
theorem foldl_min_le_init (l : List Nat) : ∀ acc : Nat, l.foldl Nat.min acc ≤ acc := by
  induction l with
  | nil => intro acc; exact le_rfl
  | cons x xs ih =>
    intro acc
    exact le_trans (ih (Nat.min acc x)) (Nat.min_le_left _ _)

/-- Python min over a list, lower bound for the members. -/
theorem foldl_min_le_mem (l : List Nat) : ∀ acc : Nat, ∀ x ∈ l, l.foldl Nat.min acc ≤ x := by
  induction l with
  | nil => intro _ x hx; cases hx
  | cons y ys ih =>
    intro acc x hx
    rcases List.mem_cons.mp hx with rfl | hx2
    · exact le_trans (foldl_min_le_init ys _) (Nat.min_le_right _ _)
    · exact ih _ x hx2

/-- Python max over a list, upper bound for the accumulator. -/
theorem le_foldl_max_init (l : List Nat) : ∀ acc : Nat, acc ≤ l.foldl Nat.max acc := by
  induction l with
  | nil => intro acc; exact le_rfl
  | cons x xs ih =>
    intro acc
    exact le_trans (Nat.le_max_left _ _) (ih (Nat.max acc x))

/-- Python max over a list, upper bound for the members. -/
theorem le_foldl_max_mem (l : List Nat) : ∀ acc : Nat, ∀ x ∈ l, x ≤ l.foldl Nat.max acc := by
  induction l with
  | nil => intro _ x hx; cases hx
  | cons y ys ih =>
    intro acc x hx
    rcases List.mem_cons.mp hx with rfl | hx2
    · exact le_trans (Nat.le_max_right _ _) (le_foldl_max_init ys _)
    · exact ih _ x hx2

/-- `min(counts)` bounds every member from below. -/
theorem min_count_le (counts : List Nat) (c : Nat) (hc : c ∈ counts) :
    min_count counts ≤ c := by
  cases counts with
  | nil => cases hc
  | cons c0 rest =>
    rcases List.mem_cons.mp hc with rfl | hc2
    · exact foldl_min_le_init rest c
    · exact foldl_min_le_mem rest c0 c hc2

/-- `max(counts)` bounds every member from above. -/
theorem le_max_count (counts : List Nat) (c : Nat) (hc : c ∈ counts) :
    c ≤ max_count counts := by
  cases counts with
  | nil => cases hc
  | cons c0 rest =>
    rcases List.mem_cons.mp hc with rfl | hc2
    · exact le_foldl_max_init rest c
    · exact le_foldl_max_mem rest c0 c hc2

/-- Claim C7: with min and max taken over the observed per-location counts,
the location with the maximal count gets the maximal radius, the one with the
minimal count gets the minimal radius, and when all counts are equal every
radius is the constant 400000 + 600000 = 1000000. -/
theorem circle_radius_extremes (counts : List Nat) (c : Nat) (hc : c ∈ counts) :
    circleRadius (min_count counts) (max_count counts) c
      ≤ circleRadius (min_count counts) (max_count counts) (max_count counts)
    ∧ circleRadius (min_count counts) (max_count counts) (min_count counts)
      ≤ circleRadius (min_count counts) (max_count counts) c
    ∧ (min_count counts = max_count counts →
        circleRadius (min_count counts) (max_count counts) c = 1000000) := by
  set mn := min_count counts with hmn
  set mx := max_count counts with hmx
  have h1 : mn ≤ c := min_count_le counts c hc
  have h2 : c ≤ mx := le_max_count counts c hc
  unfold circleRadius normalizedCount
  by_cases hgt : mx > mn
  · simp only [if_pos hgt]
    have hq : (0 : ℚ) < (mx : ℚ) - (mn : ℚ) := by
      have : (mn : ℚ) < (mx : ℚ) := by exact_mod_cast hgt
      linarith
    have hc1 : (mn : ℚ) ≤ (c : ℚ) := by exact_mod_cast h1
    have hc2 : (c : ℚ) ≤ (mx : ℚ) := by exact_mod_cast h2
    have hub : ((c : ℚ) - mn) / ((mx : ℚ) - mn) ≤ ((mx : ℚ) - mn) / ((mx : ℚ) - mn) := by
      gcongr
    have hlb : (0 : ℚ) ≤ ((c : ℚ) - mn) / ((mx : ℚ) - mn) :=
      div_nonneg (by linarith) (le_of_lt hq)
    rw [div_self (ne_of_gt hq)] at hub
    simp only [div_self (ne_of_gt hq), sub_self, zero_div]
    refine ⟨by linarith, by linarith, ?_⟩
    intro heq
    exfalso
    omega
  · simp only [if_neg hgt]
    norm_num

/-- Witness for `circle_radius_extremes` on the concrete count set 2, 5, 3
at the member count 3. -/
theorem circle_radius_extremes_witness :
    circleRadius (min_count [2, 5, 3]) (max_count [2, 5, 3]) 3
      ≤ circleRadius (min_count [2, 5, 3]) (max_count [2, 5, 3]) (max_count [2, 5, 3])
    ∧ circleRadius (min_count [2, 5, 3]) (max_count [2, 5, 3]) (min_count [2, 5, 3])
      ≤ circleRadius (min_count [2, 5, 3]) (max_count [2, 5, 3]) 3
    ∧ (min_count [2, 5, 3] = max_count [2, 5, 3] →
        circleRadius (min_count [2, 5, 3]) (max_count [2, 5, 3]) 3 = 1000000) :=
  circle_radius_extremes [2, 5, 3] 3 (by decide)

/-! ## C5 — distinctness of account colors -/

/-- The reserved identifiers of `get_account_color`. -/
def isReserved (name : String) : Bool :=
  strLower name = "m" || strLower name = "a" || strLower name = "o"

/-- Claim C5, counterexample: three pairwise-distinct accounts a, b, c — far
fewer than the 10 palette colors, so the palette is not exhausted — where the
reserved account a receives the fixed green and the palette then hands the
very same green to c: two different accounts share a color. -/
theorem account_color_collision_with_reserved :
    (["a", "b", "c"] : List String).Nodup
    ∧ assignAccountColors ["a", "b", "c"] [] = ["#10b981", "#3b82f6", "#10b981"]
    ∧ ¬ (assignAccountColors ["a", "b", "c"] []).Nodup
    ∧ accountPalette.length = 10 :=
  ⟨by decide, rfl, by decide, rfl⟩

/-- Appending a binding for a different key does not change a lookup. -/
theorem dictGet_append_sing {α : Type} (d : List (String × α)) (k k0 : String) (v : α)
    (hne : k ≠ k0) : dictGet (d ++ [(k0, v)]) k = dictGet d k := by
  induction d with
  | nil => simp [dictGet, hne.symm]
  | cons p rest ih =>
    by_cases h : p.1 = k
    · simp [dictGet, h]
    · simp [dictGet, h, ih]

/-- Processing fresh, non-reserved names from a dict of size L hands out the
palette colors at indices L, L+1, ... modulo the palette size. -/
theorem assignAccountColors_fresh :
    ∀ (names : List String) (d : List (String × String)),
      (∀ n ∈ names, isReserved n = false) →
      (∀ n ∈ names, dictGet d n = none) →
      names.Nodup →
      assignAccountColors names d
        = (List.range names.length).map (fun i => accountPalette.getD ((d.length + i) % 10) "") := by
  intro names
  induction names with
  | nil => intro d _ _ _; rfl
  | cons n rest ih =>
    intro d hres hfresh hnd
    have hrn := hres n (List.mem_cons_self n rest)
    simp only [isReserved, Bool.or_eq_false_iff, decide_eq_false_iff_not] at hrn
    have hstep : get_account_color n d
        = (accountPalette.getD (d.length % 10) "",
           d ++ [(n, accountPalette.getD (d.length % 10) "")]) := by
      unfold get_account_color
      rw [if_neg hrn.1.1, if_neg hrn.1.2, if_neg hrn.2,
        hfresh n (List.mem_cons_self n rest)]
    have hnotmem : n ∉ rest := (List.nodup_cons.mp hnd).1
    have ihres : ∀ m ∈ rest, isReserved m = false := fun m hm => hres m (List.mem_cons_of_mem n hm)
    have ihfresh : ∀ m ∈ rest,
        dictGet (d ++ [(n, accountPalette.getD (d.length % 10) "")]) m = none := by
      intro m hm
      have hmn : m ≠ n := fun h => hnotmem (h ▸ hm)
      rw [dictGet_append_sing d m n _ hmn]
      exact hfresh m (List.mem_cons_of_mem n hm)
    have ihnd : rest.Nodup := (List.nodup_cons.mp hnd).2
    show (get_account_color n d).1 :: assignAccountColors rest (get_account_color n d).2 = _
    rw [hstep]
    simp only [List.length_cons, List.range_succ_eq_map, List.map_cons, List.map_map]
    rw [ih (d ++ [(n, accountPalette.getD (d.length % 10) "")]) ihres ihfresh ihnd]
    simp only [List.length_append, List.length_cons, List.length_nil,
      Nat.zero_add, Nat.add_zero]
    congr 1
    apply List.map_congr_left
    intro i _
    simp only [Function.comp_apply, Nat.succ_eq_add_one]
    congr 2
    omega

/-- The ten palette entries are pairwise distinct. -/
theorem accountPalette_getD_inj : ∀ x < 10, ∀ y < 10,
    accountPalette.getD x "" = accountPalette.getD y "" → x = y := by decide

/-- Claim C5 as amended: for pairwise-distinct account identifiers none of
which is reserved (m, a, o case-insensitive), as long as the palette is not
exhausted (at most 10 accounts), no two different accounts receive the same
color.  (With a reserved identifier present this fails even below palette
exhaustion — see the counterexample.) -/
theorem account_colors_distinct_without_reserved (names : List String)
    (h1 : names.Nodup) (h2 : ∀ n ∈ names, isReserved n = false)
    (h3 : names.length ≤ 10) :
    (assignAccountColors names []).Nodup := by
  rw [assignAccountColors_fresh names [] h2 (fun n _ => rfl) h1]
  simp only [List.length_nil, Nat.zero_add]
  apply List.Nodup.map_on _ (List.nodup_range _)
  intro x hx y hy hxy
  have hx10 : x < 10 := lt_of_lt_of_le (List.mem_range.mp hx) h3
  have hy10 : y < 10 := lt_of_lt_of_le (List.mem_range.mp hy) h3
  rw [Nat.mod_eq_of_lt hx10, Nat.mod_eq_of_lt hy10] at hxy
  exact accountPalette_getD_inj x hx10 y hy10 hxy

/-- Witness for `account_colors_distinct_without_reserved` on three ordinary
account names. -/
theorem account_colors_distinct_without_reserved_witness :
    (assignAccountColors ["x", "y", "z"] []).Nodup :=
  account_colors_distinct_without_reserved ["x", "y", "z"]
    (by decide) (by decide) (by decide)

/-! ## C1, C2, C3 — heatmap aggregation invariants -/

/-- Sum of the per-account counters of a by_account table. -/
def byAccountSum (l : List (String × Nat)) : Nat := (l.map Prod.snd).sum

/-- Bumping one account's counter raises the table's sum by exactly one. -/
theorem bumpAccount_sum (ba : List (String × Nat)) (acct : String) :
    byAccountSum (bumpAccount ba acct) = byAccountSum ba + 1 := by
  induction ba with
  | nil => rfl
  | cons p rest ih =>
    obtain ⟨k, v⟩ := p
    by_cases h : k = acct
    · simp only [bumpAccount, if_pos h, byAccountSum, List.map_cons, List.sum_cons]
      omega
    · simp only [bumpAccount, if_neg h, byAccountSum, List.map_cons, List.sum_cons] at *
      omega

/-- An aggregate property preserved by the per-activity update holds for all
entries after a defaultdict upsert. -/
theorem upsertLoc_forall (P : LocAgg → Prop) (key : String) (a : Activity) (lat lng : ℚ)
    (hupd : ∀ d, P d → P (updateAgg d a lat lng))
    (hnew : P (updateAgg LocAgg.empty a lat lng)) :
    ∀ m : List (String × LocAgg), (∀ p ∈ m, P p.2) →
      ∀ p ∈ upsertLoc m key a lat lng, P p.2 := by
  intro m
  induction m with
  | nil =>
    intro _ p hp
    simp only [upsertLoc, List.mem_singleton] at hp
    subst hp
    exact hnew
  | cons q rest ih =>
    obtain ⟨k, d⟩ := q
    intro hm p hp
    by_cases h : k = key
    · simp only [upsertLoc, if_pos h] at hp
      rcases List.mem_cons.mp hp with rfl | hp2
      · exact hupd d (hm (k, d) (List.mem_cons_self _ _))
      · exact hm p (List.mem_cons_of_mem _ hp2)
    · simp only [upsertLoc, if_neg h] at hp
      rcases List.mem_cons.mp hp with rfl | hp2
      · exact hm (k, d) (List.mem_cons_self _ _)
      · exact ih (fun r hr => hm r (List.mem_cons_of_mem _ hr)) p hp2

/-- Fold form of the aggregation-loop invariant: a property of aggregates
that is established by the first member update and preserved by later ones
holds for every entry of the final location table. -/
theorem foldl_process_forall (P : LocAgg → Prop) (net : ℚ → ℚ → Outcome)
    (hupd : ∀ d a lat lng, a.start_latlng = some (lat, lng) → P d → P (updateAgg d a lat lng))
    (hnew : ∀ (a : Activity) lat lng, a.start_latlng = some (lat, lng) →
      P (updateAgg LocAgg.empty a lat lng)) :
    ∀ (l : List Activity) (st : List (String × LocAgg) × GeoCache),
      (∀ p ∈ st.1, P p.2) →
      ∀ p ∈ (l.foldl (processActivity net) st).1, P p.2 := by
  intro l
  induction l with
  | nil => intro st hst p hp; exact hst p hp
  | cons a rest ih =>
    intro st hst
    rw [List.foldl_cons]
    apply ih
    cases hsl : a.start_latlng with
    | none =>
      intro p hp
      simp only [processActivity, hsl] at hp
      exact hst p hp
    | some q =>
      obtain ⟨lat, lng⟩ := q
      intro p hp
      simp only [processActivity, hsl] at hp
      exact upsertLoc_forall P _ a lat lng
        (fun d hd => hupd d a lat lng hsl hd)
        (hnew a lat lng hsl) st.1 hst p hp

/-- Claim C1: in every aggregate the heatmap pass produces — for any input
activity list and any geocoder behaviour — the per-account counters sum to
the aggregate's total count. -/
theorem heatmap_by_account_sum_eq_count (net : ℚ → ℚ → Outcome)
    (acts : List Activity) (p : String × LocAgg) (hp : p ∈ (aggregate net acts).1) :
    byAccountSum p.2.by_account = p.2.count := by
  refine foldl_process_forall (fun d => byAccountSum d.by_account = d.count) net ?_ ?_
    (filterActivities acts) ([], []) (fun q hq => absurd hq (List.not_mem_nil q)) p hp
  · intro d a lat lng _ hd
    simp only [updateAgg, bumpAccount_sum, hd]
  · intro a lat lng _
    rfl

/-- Witness for `heatmap_by_account_sum_eq_count`: two runs in the same city
form one aggregate with count 2 and by_account m ↦ 2. -/
theorem heatmap_by_account_sum_eq_count_witness :
    byAccountSum (⟨2, 3, 4, [actA, actB], [("m", 2)]⟩ : LocAgg).by_account
      = (⟨2, 3, 4, [actA, actB], [("m", 2)]⟩ : LocAgg).count :=
  heatmap_by_account_sum_eq_count netFail [actA, actB]
    ("X, Y", ⟨2, 3, 4, [actA, actB], [("m", 2)]⟩) (by decide)

/-- Claim C2, counterexample: two members of the same location, first one
starting at (1, 2), second at (3, 4).  The aggregate stores (3, 4) — the
second, last-seen member's coordinate — although the first coordinate-bearing
member in input order starts at (1, 2): the stored representative is not the
first-seen coordinate. -/
theorem representative_not_first_seen :
    actA.start_latlng = some (1, 2)
    ∧ (aggregate netFail [actA, actB]).1.map (fun p => (p.1, p.2.lat, p.2.lng))
        = [("X, Y", 3, 4)]
    ∧ ¬ ((3 : ℚ), (4 : ℚ)) = ((1 : ℚ), (2 : ℚ)) :=
  ⟨rfl, rfl, by decide⟩

/-- Claim C2 as amended: the representative coordinate of every aggregate is
the start coordinate of the LAST coordinate-bearing member in input order
(each member overwrites the stored coordinate), and in particular it belongs
to one member activity of the aggregate. -/
theorem representative_is_last_member (net : ℚ → ℚ → Outcome)
    (acts : List Activity) (p : String × LocAgg) (hp : p ∈ (aggregate net acts).1) :
    ∃ a, p.2.activities.getLast? = some a
      ∧ a.start_latlng = some (p.2.lat, p.2.lng) ∧ a ∈ p.2.activities := by
  refine foldl_process_forall
    (fun d => ∃ a, d.activities.getLast? = some a
      ∧ a.start_latlng = some (d.lat, d.lng) ∧ a ∈ d.activities) net ?_ ?_
    (filterActivities acts) ([], []) (fun q hq => absurd hq (List.not_mem_nil q)) p hp
  · intro d a lat lng ha _
    exact ⟨a, by simp [updateAgg, List.getLast?_concat],
      by simp [updateAgg, ha], by simp [updateAgg]⟩
  · intro a lat lng ha
    exact ⟨a, by simp [updateAgg, LocAgg.empty, List.getLast?_concat],
      by simp [updateAgg, LocAgg.empty, ha], by simp [updateAgg, LocAgg.empty]⟩

/-- Witness for `representative_is_last_member` at the two-member aggregate
of the counterexample input. -/
theorem representative_is_last_member_witness :
    ∃ a, ((⟨2, 3, 4, [actA, actB], [("m", 2)]⟩ : LocAgg).activities.getLast? = some a)
      ∧ a.start_latlng = some ((⟨2, 3, 4, [actA, actB], [("m", 2)]⟩ : LocAgg).lat,
          (⟨2, 3, 4, [actA, actB], [("m", 2)]⟩ : LocAgg).lng)
      ∧ a ∈ (⟨2, 3, 4, [actA, actB], [("m", 2)]⟩ : LocAgg).activities :=
  representative_is_last_member netFail [actA, actB]
    ("X, Y", ⟨2, 3, 4, [actA, actB], [("m", 2)]⟩) (by decide)

/-- Claim C3, counterexample: one tracked activity with no start coordinate.
The combined routes map builder returns no file, and indeed no
LocationAggregate exists — but the combined heatmap file IS still produced
(the heatmap builder saves and returns its document unconditionally),
contradicting the claim that the heatmap is not produced either. -/
theorem heatmap_still_produced_without_coordinates :
    create_combined_routes_map [actNoCoord] "T" = none
    ∧ (aggregate netFail [actNoCoord]).1 = []
    ∧ create_combined_heatmap netFail [actNoCoord] "T" = "combined_heatmap_T.html" :=
  ⟨rfl, rfl, rfl⟩

/-- Activities without start coordinates are all skipped by the aggregation
loop, leaving the state unchanged. -/
theorem no_coords_skip (net : ℚ → ℚ → Outcome) :
    ∀ (l : List Activity) (st : List (String × LocAgg) × GeoCache),
      (∀ a ∈ l, a.start_latlng = none) →
      l.foldl (processActivity net) st = st := by
  intro l
  induction l with
  | nil => intro st _; rfl
  | cons a rest ih =>
    intro st h
    rw [List.foldl_cons]
    have ha := h a (List.mem_cons_self a rest)
    have hstep : processActivity net st a = st := by
      simp [processActivity, ha]
    rw [hstep]
    exact ih st (fun b hb => h b (List.mem_cons_of_mem a hb))

/-- Claim C3 as amended: when no type-filtered activity has a start
coordinate, the combined routes map builder produces no file (returns None
after logging), and no LocationAggregate exists — but the combined heatmap
document is nevertheless still produced: the heatmap builder always saves
and returns its timestamped file, here containing zero location circles. -/
theorem no_coordinates_routes_none_heatmap_saved (net : ℚ → ℚ → Outcome)
    (acts : List Activity) (ts : String)
    (h : ∀ a ∈ filterActivities acts, a.start_latlng = none) :
    create_combined_routes_map acts ts = none
    ∧ (aggregate net acts).1 = []
    ∧ create_combined_heatmap net acts ts = "combined_heatmap_" ++ ts ++ ".html" := by
  refine ⟨?_, ?_, rfl⟩
  · unfold create_combined_routes_map
    by_cases hf : filterActivities acts = []
    · rw [if_pos hf]
    · rw [if_neg hf]
      have hfind : (filterActivities acts).find? (fun a => a.start_latlng.isSome) = none := by
        rw [List.find?_eq_none]
        intro x hx
        simp [h x hx]
      rw [hfind]
  · unfold aggregate
    rw [no_coords_skip net _ _ h]

/-- Witness for `no_coordinates_routes_none_heatmap_saved` at the concrete
coordinate-free input. -/
theorem no_coordinates_routes_none_heatmap_saved_witness :
    create_combined_routes_map [actNoCoord] "TS" = none
    ∧ (aggregate netFail [actNoCoord]).1 = []
    ∧ create_combined_heatmap netFail [actNoCoord] "TS"
        = "combined_heatmap_" ++ "TS" ++ ".html" :=
  no_coordinates_routes_none_heatmap_saved netFail [actNoCoord] "TS" (by decide)

/-! ## C6 — location resolver refinement -/

/-- A non-empty string has positive length. -/
theorem length_pos_of_ne_empty (s : String) (h : s ≠ "") : 0 < s.length := by
  obtain ⟨data⟩ := s
  cases data with
  | nil => exact absurd rfl h
  | cons c cs => exact Nat.succ_pos _

/-- Claim C6: the location resolver implements exactly the spec's priority —
city-and-country, country alone, city alone, reverse-geocoded name with the
coordinate-bucket string on lookup failure, literal Unknown — and its result
is always non-empty (the resolver is total and never fails). -/
theorem get_location_key_meets_spec (net : ℚ → ℚ → Outcome) (a : Activity)
    (cache : GeoCache) :
    (get_location_key net a cache).1 = location_key_spec net a cache
    ∧ 0 < (get_location_key net a cache).1.length := by
  by_cases hci : a.location_city = "" <;> by_cases hco : a.location_country = ""
  · -- no city, no country: coordinate branch
    simp only [get_location_key, location_key_spec, hci, hco, ne_eq, not_true_eq_false,
      false_and, if_false, if_neg]
    cases hsl : a.start_latlng with
    | none =>
      dsimp only
      exact ⟨rfl, by decide⟩
    | some q =>
      obtain ⟨lat, lng⟩ := q
      dsimp only
      cases hr : (get_city_from_coordinates net lat lng cache).1 with
      | none =>
        dsimp only
        refine ⟨rfl, ?_⟩
        simp only [String.length_append]
        have h10 : ("Location (" : String).length = 10 := rfl
        omega
      | some s =>
        dsimp only
        by_cases hs : s = ""
        · subst hs
          simp only [ne_eq, not_true_eq_false, if_false]
          refine ⟨by trivial, ?_⟩
          simp only [String.length_append]
          have h10 : ("Location (" : String).length = 10 := rfl
          omega
        · simp only [ne_eq, hs, not_false_eq_true, if_true]
          exact ⟨by trivial, length_pos_of_ne_empty s hs⟩
  · -- no city, but a country: country branch
    simp only [get_location_key, location_key_spec, hci, hco, ne_eq, not_true_eq_false,
      false_and, if_false, not_false_eq_true, if_true]
    exact ⟨by trivial, length_pos_of_ne_empty _ hco⟩
  · -- a city, no country: city branch
    simp only [get_location_key, location_key_spec, hci, hco, ne_eq, not_true_eq_false,
      not_false_eq_true, and_false, if_false, if_true]
    exact ⟨by trivial, length_pos_of_ne_empty _ hci⟩
  · -- city and country: pair branch
    simp only [get_location_key, location_key_spec, hci, hco, ne_eq, not_false_eq_true,
      and_self, if_true]
    refine ⟨by trivial, ?_⟩
    simp only [String.length_append]
    have h2 : (", " : String).length = 2 := rfl
    omega

/-! ## C10 — geocode cache policy -/

/-- Looking up a key right after appending its binding finds that binding. -/
theorem dictGet_append_self {α : Type} (d : List (String × α)) (k : String) (v : α)
    (h : dictGet d k = none) : dictGet (d ++ [(k, v)]) k = some v := by
  induction d with
  | nil => simp [dictGet]
  | cons p rest ih =>
    obtain ⟨k0, v0⟩ := p
    by_cases hp : k0 = k
    · simp only [dictGet, if_pos hp] at h
      exact absurd h (by simp)
    · simp only [List.cons_append, dictGet, if_neg hp] at h ⊢
      exact ih h

/-- An existing binding survives appending further entries. -/
theorem dictGet_append_some {α : Type} (d l : List (String × α)) (k : String) (w : α)
    (h : dictGet d k = some w) : dictGet (d ++ l) k = some w := by
  induction d with
  | nil => exact absurd h (by simp [dictGet])
  | cons p rest ih =>
    obtain ⟨k0, v0⟩ := p
    by_cases hp : k0 = k
    · simp only [dictGet, if_pos hp] at h
      simp only [List.cons_append, dictGet, if_pos hp]
      exact h
    · simp only [dictGet, if_neg hp] at h
      simp only [List.cons_append, dictGet, if_neg hp]
      exact ih h

/-- A cache hit is returned as-is, with the cache unchanged and no request. -/
theorem get_city_hit (net : ℚ → ℚ → Outcome) (lat lng : ℚ) (cache : GeoCache)
    (v : Option String) (h : dictGet cache (cacheKey lat lng) = some v) :
    get_city_from_coordinates net lat lng cache = (v, cache, 0) := by
  unfold get_city_from_coordinates
  rw [h]

/-- A cache miss performs exactly one request and stores its result — the
name on success, None on every failure — under the rounded key. -/
theorem get_city_miss (net : ℚ → ℚ → Outcome) (lat lng : ℚ) (cache : GeoCache)
    (h : dictGet cache (cacheKey lat lng) = none) :
    dictGet (get_city_from_coordinates net lat lng cache).2.1 (cacheKey lat lng)
        = some (get_city_from_coordinates net lat lng cache).1
    ∧ (get_city_from_coordinates net lat lng cache).2.2 = 1 := by
  unfold get_city_from_coordinates
  rw [h]
  cases net lat lng with
  | ok r => exact ⟨dictGet_append_self cache _ r h, rfl⟩
  | fail => exact ⟨dictGet_append_self cache _ none h, rfl⟩

/-- A call never removes another key's binding from the cache. -/
theorem get_city_preserves (net : ℚ → ℚ → Outcome) (lat lng : ℚ) (cache : GeoCache)
    (k : String) (w : Option String) (h : dictGet cache k = some w) :
    dictGet (get_city_from_coordinates net lat lng cache).2.1 k = some w := by
  unfold get_city_from_coordinates
  cases hm : dictGet cache (cacheKey lat lng) with
  | some v => exact h
  | none =>
    cases net lat lng with
    | ok r => exact dictGet_append_some cache _ k w h
    | fail => exact dictGet_append_some cache _ k w h

/-- Total number of external reverse-geocoding requests attributable to one
cache key across a run of consecutive calls, threading the cache. -/
def countLookups (net : ℚ → ℚ → Outcome) : List (ℚ × ℚ) → GeoCache → String → Nat
  | [], _, _ => 0
  | (lat, lng) :: rest, cache, k =>
    (if cacheKey lat lng = k then (get_city_from_coordinates net lat lng cache).2.2 else 0)
      + countLookups net rest (get_city_from_coordinates net lat lng cache).2.1 k

/-- Per-key request bound for a run starting from any cache, together with
the strengthening that a key already cached causes no request at all. -/
theorem countLookups_le_one_general (net : ℚ → ℚ → Outcome) (k : String) :
    ∀ (queries : List (ℚ × ℚ)) (cache : GeoCache),
      countLookups net queries cache k ≤ 1
      ∧ (∀ w, dictGet cache k = some w → countLookups net queries cache k = 0) := by
  intro queries
  induction queries with
  | nil => intro cache; exact ⟨Nat.zero_le 1, fun _ _ => rfl⟩
  | cons q rest ih =>
    obtain ⟨lat, lng⟩ := q
    intro cache
    cases hm : dictGet cache (cacheKey lat lng) with
    | some v =>
      have hred := get_city_hit net lat lng cache v hm
      simp only [countLookups, hred]
      constructor
      · have := (ih cache).1
        split <;> omega
      · intro w hw
        have := (ih cache).2 w hw
        split <;> omega
    | none =>
      have hmiss := get_city_miss net lat lng cache hm
      by_cases hk : cacheKey lat lng = k
      · simp only [countLookups, if_pos hk, hmiss.2]
        have hrest := (ih (get_city_from_coordinates net lat lng cache).2.1).2
          (get_city_from_coordinates net lat lng cache).1 (hk ▸ hmiss.1)
        constructor
        · omega
        · intro w hw
          rw [hk] at hm
          rw [hm] at hw
          exact Option.noConfusion hw
      · simp only [countLookups, if_neg hk]
        constructor
        · have := (ih (get_city_from_coordinates net lat lng cache).2.1).1
          omega
        · intro w hw
          have hkeep := get_city_preserves net lat lng cache k w hw
          have := (ih (get_city_from_coordinates net lat lng cache).2.1).2 w hkeep
          omega

/-- Claim C10: the cache is consulted first and a hit is returned with no
request; every completed lookup after a miss — successful or failed — stores
its result under the 1-decimal-rounded key; consequently, starting from the
fresh per-run cache, each rounded coordinate bucket causes at most one
external request per run. -/
theorem geocode_cache_policy (net : ℚ → ℚ → Outcome) :
    (∀ (lat lng : ℚ) (cache : GeoCache) (v : Option String),
      dictGet cache (cacheKey lat lng) = some v →
      get_city_from_coordinates net lat lng cache = (v, cache, 0))
    ∧ (∀ (lat lng : ℚ) (cache : GeoCache),
      dictGet cache (cacheKey lat lng) = none →
      dictGet (get_city_from_coordinates net lat lng cache).2.1 (cacheKey lat lng)
          = some (get_city_from_coordinates net lat lng cache).1
        ∧ (get_city_from_coordinates net lat lng cache).2.2 = 1)
    ∧ (∀ (queries : List (ℚ × ℚ)) (k : String),
      countLookups net queries [] k ≤ 1) :=
  ⟨get_city_hit net, get_city_miss net,
   fun queries k => (countLookups_le_one_general net k queries []).1⟩

/-- Witness for `geocode_cache_policy`: a hit on a one-entry cache returned
unchanged with zero requests; a miss on the empty cache storing its result
with one request; and a two-query run on the same bucket staying within one
request. -/
theorem geocode_cache_policy_witness :
    get_city_from_coordinates netFail 1 2 [(cacheKey 1 2, some "Z")]
        = (some "Z", [(cacheKey 1 2, some "Z")], 0)
    ∧ (dictGet (get_city_from_coordinates netFail 3 4 []).2.1 (cacheKey 3 4)
          = some (get_city_from_coordinates netFail 3 4 []).1
        ∧ (get_city_from_coordinates netFail 3 4 []).2.2 = 1)
    ∧ countLookups netFail [(1, 2), (1, 2)] [] (cacheKey 1 2) ≤ 1 :=
  ⟨(geocode_cache_policy netFail).1 1 2 [(cacheKey 1 2, some "Z")] (some "Z")
      (by simp [dictGet]),
   (geocode_cache_policy netFail).2.1 3 4 [] rfl,
   (geocode_cache_policy netFail).2.2 [(1, 2), (1, 2)] (cacheKey 1 2)⟩

end Strava
